import Mathlib

/-!
Verification of the pyctios `CtiOs` pipeline (src/ctios/__init__.py).

The development shallowly embeds the pure content of the `CtiOs` class:
identifier selection and deduplication (`set_ids_from_db`), batch
partitioning (`query_requests`), attribute-name transliteration
(`_transform_names`, `_transform_names_dict`), per-record response
classification and counter updates, schema evolution (adding the
`OS_ID` column), and the per-record update transaction of
`_save_attributes_to_db`.  External collaborators (HTTP transport,
XML parsing, the CSV loader, sqlite) are represented by the values
they deliver to the core: a response document becomes a list of
records, the sqlite table becomes an association list of rows, the
CSV mapping becomes an association list, and a failing `UPDATE`
statement (for example one naming a non-existent column) becomes an
update step returning `none`.
-/

namespace PyCtiOs

/-- Run counters, the `state_vector` dictionary initialised in
`CtiOs.set_log_file` and incremented in `_save_attributes_to_db`. -/
structure StateVector where
  neplatny_identifikator : Nat
  expirovany_identifikator : Nat
  opravneny_subjekt_neexistuje : Nat
  uspesne_stazeno : Nat
deriving DecidableEq

/-- Domain-level failures of the core.  The Python code raises
`CtiOsError` with distinguishing messages (empty query result,
unconvertible attribute name, database connection failure); an unset
attribute access raises Python's `AttributeError`. -/
inductive Err
  | emptyResult
  | unmappableAttribute
  | connectionFailed
  | attributeError
deriving DecidableEq

/-- Batch partitioning performed by `CtiOs.query_requests` (lines
375-394): when the identifier list fits in one request it is sent
whole; otherwise `full_arrays = len(ids) // max_num` consecutive
slices `ids[i*max_num : i*max_num + max_num]` are sent, followed by
the remainder slice `ids[len(ids) - rest :]` when it is non-empty
(`rest = len(ids) % max_num`). -/
def query_batches (ids : List String) (max_num : Nat) : List (List String) :=
  if ids.length ≤ max_num then [ids]
  else
    let full_arrays := ids.length / max_num
    let rest := ids.length % max_num
    let fulls := (List.range full_arrays).map fun i => (ids.drop (i * max_num)).take max_num
    let ids_rest := ids.drop (ids.length - rest)
    if ids_rest.isEmpty then fulls else fulls ++ [ids_rest]

/-- Concatenating the first `k` slices of width `M` recovers the first
`k * M` elements. -/
theorem flatten_range_slices (M : Nat) (ids : List String) (k : Nat) :
    ((List.range k).map fun i => (ids.drop (i * M)).take M).flatten = ids.take (k * M) := by
  induction k with
  | zero => simp
  | succ k ih =>
    rw [List.range_succ, List.map_append, List.flatten_append]
    simp only [List.map_cons, List.map_nil, List.flatten_cons, List.flatten_nil,
      List.append_nil, ih]
    rw [Nat.succ_mul, List.take_add]

/-- A slice of width `M` taken inside the list has length exactly `M`. -/
theorem length_slice_of_le {M i : Nat} (ids : List String) (h : (i + 1) * M ≤ ids.length) :
    ((ids.drop (i * M)).take M).length = M := by
  rw [Nat.succ_mul] at h
  rw [List.length_take, List.length_drop]
  omega

/-- C1 (amended): for every non-empty identifier list and maximum batch
size `M > 0`, the batches produced by `query_requests` concatenate back
to the original list, every batch is non-empty of size at most `M`, and
every batch before the last has size exactly `M`. -/
theorem query_requests_partition (ids : List String) (M : Nat) (hM : 0 < M) (hne : ids ≠ []) :
    (query_batches ids M).flatten = ids ∧
    (∀ b ∈ query_batches ids M, b ≠ [] ∧ b.length ≤ M) ∧
    (∀ b ∈ (query_batches ids M).dropLast, b.length = M) := by
  by_cases h : ids.length ≤ M
  · rw [query_batches, if_pos h]
    refine ⟨by simp, ?_, by simp⟩
    intro b hb
    rw [List.mem_singleton] at hb
    subst hb
    exact ⟨hne, h⟩
  · have hdvm : (ids.length / M) * M ≤ ids.length := Nat.div_mul_le_self _ _
    have hdm : M * (ids.length / M) + ids.length % M = ids.length := Nat.div_add_mod _ _
    have hmod : ids.length % M < M := Nat.mod_lt _ hM
    have hsub : ids.length - ids.length % M = (ids.length / M) * M := by
      rw [Nat.mul_comm] at hdm
      omega
    have hfull : ∀ b ∈ (List.range (ids.length / M)).map
        (fun i => (ids.drop (i * M)).take M), b.length = M := by
      intro b hb
      rcases List.mem_map.mp hb with ⟨i, hi, rfl⟩
      rw [List.mem_range] at hi
      exact length_slice_of_le ids (le_trans (Nat.mul_le_mul_right _ hi) hdvm)
    have hrest_len : (ids.drop (ids.length - ids.length % M)).length = ids.length % M := by
      rw [List.length_drop]
      omega
    by_cases hr : ids.length % M = 0
    · have hrest_nil : ids.drop (ids.length - ids.length % M) = [] := by
        rw [hr, Nat.sub_zero, List.drop_length]
      rw [query_batches, if_neg h]
      simp only [hrest_nil, List.isEmpty_nil, if_true]
      refine ⟨?_, ?_, ?_⟩
      · rw [flatten_range_slices]
        have hlen : ids.length / M * M = ids.length := by omega
        rw [hlen, List.take_length]
      · intro b hb
        refine ⟨?_, le_of_eq (hfull b hb)⟩
        have hb' := hfull b hb
        intro hbnil
        rw [hbnil, List.length_nil] at hb'
        omega
      · intro b hb
        exact hfull b (List.mem_of_mem_dropLast hb)
    · have hrest_ne : ¬ (ids.drop (ids.length - ids.length % M)).isEmpty = true := by
        rw [List.isEmpty_iff]
        intro hnil
        rw [hnil, List.length_nil] at hrest_len
        omega
      rw [query_batches, if_neg h]
      simp only [if_neg hrest_ne]
      refine ⟨?_, ?_, ?_⟩
      · rw [List.flatten_append, flatten_range_slices]
        simp only [List.flatten_cons, List.flatten_nil, List.append_nil]
        rw [← hsub]
        exact List.take_append_drop _ ids
      · intro b hb
        rcases List.mem_append.mp hb with hb | hb
        · refine ⟨?_, le_of_eq (hfull b hb)⟩
          have hb' := hfull b hb
          intro hbnil
          rw [hbnil, List.length_nil] at hb'
          omega
        · rw [List.mem_singleton] at hb
          subst hb
          refine ⟨?_, ?_⟩
          · intro hbnil
            rw [hbnil, List.length_nil] at hrest_len
            omega
          · rw [hrest_len]
            exact le_of_lt hmod
      · intro b hb
        rw [List.dropLast_concat] at hb
        exact hfull b hb

/-- C1 counterexample: on the empty identifier list `query_requests`
still issues a single service call, whose batch is empty — refuting
"every batch is non-empty" for arbitrary `ids`. -/
theorem query_requests_partition_cex :
    query_batches [] 2 = [[]] ∧ ¬ (∀ b ∈ query_batches ([] : List String) 2, b ≠ []) := by
  refine ⟨rfl, ?_⟩
  intro hall
  exact hall [] (by rw [query_batches]; simp) rfl

/-- C1 witness: the spec scenario — three identifiers with maximum
batch size 2 yield the batches `["101", "102"]` and `["103"]`. -/
theorem query_requests_partition_witness :
    query_batches ["101", "102", "103"] 2 = [["101", "102"], ["103"]] ∧
    (query_batches ["101", "102", "103"] 2).flatten = ["101", "102", "103"] :=
  ⟨by decide, (query_requests_partition ["101", "102", "103"] 2 (by decide) (by decide)).1⟩

/-- ASCII upper-case letter: the character class `[A-Z]` of the regex
used by `_transform_names`. -/
def isUpperAZ (c : Char) : Bool := decide ('A' ≤ c) && decide (c ≤ 'Z')

/-- The substitution `re.sub('([A-Z]{1})', r'_\1', xml_name)`: an
underscore is inserted before every ASCII upper-case letter — the
leading one included, and one per letter rather than one per run. -/
def sub_underscore : List Char → List Char
  | [] => []
  | c :: cs =>
    if isUpperAZ c then '_' :: c :: sub_underscore cs else c :: sub_underscore cs

/-- Python `str.upper()` on one character, restricted to ASCII, which
covers all attribute names concerned. -/
def upperChar (c : Char) : Char :=
  if decide ('a' ≤ c) && decide (c ≤ 'z') then Char.ofNat (c.toNat - 32) else c

/-- `CtiOs._transform_names` (lines 211-224): mechanical conversion of
an XML attribute name to a database column name, implemented as the
regex substitution followed by `.upper()`. -/
def transform_names (xml_name : String) : String :=
  String.mk ((sub_underscore xml_name.data).map upperChar)

/-- C6: evaluating `_transform_names` at its own docstring example.
`StavDat` yields `_STAV_DAT` — with a separator before the leading
upper-case letter — and `OSId` yields `_O_S_ID` — one separator per
upper-case letter, not per run.  The docstring (`eg. StavDat to
stav_dat`) and the spec (`STAV_DAT`, no leading separator, one
separator per run) both disagree with the computed result. -/
theorem transform_names_leading_separator :
    transform_names "StavDat" = "_STAV_DAT" ∧ transform_names "OSId" = "_O_S_ID" := by
  constructor <;> rfl

/-- `CtiOs._transform_names_dict` (lines 226-250): look the original
XML attribute name up in the CSV-loaded mapping table; a missing key
raises `CtiOsError` ("XML ATTRIBUTE NAME CANNOT BE CONVERTED TO
DATABASE COLUMN NAME"), here `Err.unmappableAttribute`. -/
def transform_names_dict (attribute_map : List (String × String)) (xml_name : String) :
    Except Err String :=
  match attribute_map.lookup xml_name with
  | some database_name => .ok database_name
  | none => .error .unmappableAttribute

/-- Attribute-name resolution step of `_save_attributes_to_db` (lines
322-328): use the mechanical transliteration when it names a known
column, otherwise fall back to the dictionary keyed by the original
name. -/
def translate_attribute (col_names : List String) (attribute_map : List (String × String))
    (xml_name : String) : Except Err String :=
  let database_name := transform_names xml_name
  if database_name ∈ col_names then .ok database_name
  else transform_names_dict attribute_map xml_name

/-- C7: translation is a two-stage resolution — the transliterated name
when it is a known column, else the mapping-table entry for the
original name, else `UnmappableAttributeError` (never a silent skip). -/
theorem translate_attribute_resolution (col_names : List String)
    (attribute_map : List (String × String)) (xml_name : String) :
    (transform_names xml_name ∈ col_names →
      translate_attribute col_names attribute_map xml_name = .ok (transform_names xml_name)) ∧
    (transform_names xml_name ∉ col_names →
      ∀ v, attribute_map.lookup xml_name = some v →
        translate_attribute col_names attribute_map xml_name = .ok v) ∧
    (transform_names xml_name ∉ col_names → attribute_map.lookup xml_name = none →
      translate_attribute col_names attribute_map xml_name = .error .unmappableAttribute) := by
  refine ⟨?_, ?_, ?_⟩
  · intro hmem
    rw [translate_attribute]
    simp only [if_pos hmem]
  · intro hmem v hv
    rw [translate_attribute]
    simp only [if_neg hmem, transform_names_dict, hv]
  · intro hmem hv
    rw [translate_attribute]
    simp only [if_neg hmem, transform_names_dict, hv]

/-- C7 witness: the spec scenario — `StavDat` transliterates to
`_STAV_DAT`, which is not a column, so the mapping-table entry
`STAV_DATUM` is used. -/
theorem translate_attribute_resolution_witness :
    translate_attribute ["STAV_DAT", "OS_ID"] [("StavDat", "STAV_DATUM")] "StavDat" =
      .ok "STAV_DATUM" :=
  (translate_attribute_resolution ["STAV_DAT", "OS_ID"] [("StavDat", "STAV_DATUM")]
    "StavDat").2.1 (by decide) "STAV_DATUM" (by decide)

/-- One `os` element of the response document, as seen by
`_save_attributes_to_db` through the XML parser: the
pseudo-identifier, the optional `chybaPOSIdent` error marker, the
`osId` assigned by the service and the flattened `osDetail` attributes
(local tag name mapped to text). -/
structure OsRecord where
  pOSIdent : String
  chybaPOSIdent : Option String
  osId : String
  osDetail : List (String × String)
deriving DecidableEq

/-- Outcome of the per-record error check (lines 267-288).
`fallThrough` is the case of a marker that matches none of the three
literals: no branch fires, no `continue` runs, no counter is
incremented, and control falls through to the success-processing code
below the `if`/`else`. -/
inductive Outcome
  | neplatny
  | expirovany
  | opravneny
  | success
  | fallThrough
deriving DecidableEq

/-- The chain of literal comparisons on the `chybaPOSIdent` text
(lines 268-288); a record without the marker is a success. -/
def classify (r : OsRecord) : Outcome :=
  match r.chybaPOSIdent with
  | some marker =>
    if marker = "NEPLATNY_IDENTIFIKATOR" then .neplatny
    else if marker = "EXPIROVANY_IDENTIFIKATOR" then .expirovany
    else if marker = "OPRAVNENY_SUBJEKT_NEEXISTUJE" then .opravneny
    else .fallThrough
  | none => .success

/-- Counter update per classified record: each known failure kind and
each success increments its own `state_vector` entry; a fall-through
record increments nothing. -/
def countOutcome (sv : StateVector) : Outcome → StateVector
  | .neplatny => { sv with neplatny_identifikator := sv.neplatny_identifikator + 1 }
  | .expirovany => { sv with expirovany_identifikator := sv.expirovany_identifikator + 1 }
  | .opravneny =>
    { sv with opravneny_subjekt_neexistuje := sv.opravneny_subjekt_neexistuje + 1 }
  | .success => { sv with uspesne_stazeno := sv.uspesne_stazeno + 1 }
  | .fallThrough => sv

/-- The `OPSUB` table: its column names and its rows, each row an
association of column name to stored text keyed by the row's `id`. -/
structure Store where
  cols : List String
  rows : List (String × List (String × String))
deriving DecidableEq

/-- `ALTER TABLE OPSUB ADD COLUMN OS_ID TEXT`, guarded by the
column-presence check of lines 310-313. -/
def addOsIdColumn (col_names : List String) : List String :=
  if "OS_ID" ∈ col_names then col_names else col_names ++ ["OS_ID"]

/-- Setting one cell of a row: replace the value under `col`, or store
a fresh cell when the row does not carry the column yet (a column just
added by `ALTER TABLE` is NULL in every row). -/
def updateRow (row : List (String × String)) (col v : String) : List (String × String) :=
  match row.lookup col with
  | some _ => row.map fun p => if p.1 = col then (p.1, v) else p
  | none => row ++ [(col, v)]

/-- One `UPDATE OPSUB SET col = value WHERE id = posident` statement.
It succeeds when `col` is a column of the table, setting the cell of
every matching row; naming a column the table does not have makes
sqlite raise `conn.Error`, modelled by `none` — the write fault. -/
def execUpdate (st : Store) (col v posident : String) : Option Store :=
  if col ∈ st.cols then
    some { st with
      rows := st.rows.map fun r => if r.1 = posident then (r.1, updateRow r.2 col v) else r }
  else none

/-- The statement sequence between `BEGIN TRANSACTION` and `COMMIT
TRANSACTION` (lines 333-337): every translated attribute in turn, then
the fixed `OS_ID` statement; the first failing statement aborts the
sequence. -/
def execUpdates (st : Store) (ups : List (String × String)) (posident : String) :
    Option Store :=
  match ups with
  | [] => some st
  | (col, v) :: rest =>
    match execUpdate st col v posident with
    | some st2 => execUpdates st2 rest posident
    | none => none

/-- The per-record transaction of `_save_attributes_to_db` (lines
331-348).  On success the updates are committed.  On a write fault the
transaction is rolled back — the store is as before the record — and,
the `except conn.Error` branch raising nothing after its `ROLLBACK`,
the function simply carries on. -/
def persistRecord (st : Store) (database_attributes : List (String × String))
    (osid posident : String) : Store :=
  match execUpdates st (database_attributes ++ [("OS_ID", osid)]) posident with
  | some st2 => st2
  | none => st

/-- The translation loop of lines 323-328 over the `osDetail`
attributes; the first unmappable name raises out of the record. -/
def translate_attributes (col_names : List String) (attribute_map : List (String × String)) :
    List (String × String) → Except Err (List (String × String))
  | [] => .ok []
  | (xml_name, xml_value) :: rest =>
    match translate_attribute col_names attribute_map xml_name with
    | .error e => .error e
    | .ok database_name =>
      match translate_attributes col_names attribute_map rest with
      | .error e => .error e
      | .ok tail => .ok ((database_name, xml_value) :: tail)

/-- Processing of one `os` element by `_save_attributes_to_db`: the
error-marker chain with its counter updates and `continue`s, then —
for every record reaching the success-processing code (no marker, or
an unknown marker that fell through) — the column read and guarded
`ALTER TABLE`, the attribute translation against the column names read
before the `ALTER`, and the per-record update transaction. -/
def processRecord (attribute_map : List (String × String)) (sv : StateVector) (st : Store)
    (r : OsRecord) : Except Err (StateVector × Store) :=
  match classify r with
  | .neplatny => .ok (countOutcome sv .neplatny, st)
  | .expirovany => .ok (countOutcome sv .expirovany, st)
  | .opravneny => .ok (countOutcome sv .opravneny, st)
  | o =>
    let sv2 := countOutcome sv o
    let col_names := st.cols
    let st2 : Store := { st with cols := addOsIdColumn st.cols }
    match translate_attributes col_names attribute_map r.osDetail with
    | .error e => .error e
    | .ok database_attributes =>
      .ok (sv2, persistRecord st2 database_attributes r.osId r.pOSIdent)

/-- `_save_attributes_to_db` over the parsed records of one response
document, threading the counters and the store through the `for os in
root.findall(...)` loop. -/
def save_attributes_to_db (attribute_map : List (String × String)) (sv : StateVector)
    (st : Store) : List OsRecord → Except Err (StateVector × Store)
  | [] => .ok (sv, st)
  | r :: rest =>
    match processRecord attribute_map sv st r with
    | .error e => .error e
    | .ok (sv2, st2) => save_attributes_to_db attribute_map sv2 st2 rest

/-- C4: a record whose error marker is none of the three known
literals is classified as `fallThrough` — no `ResponseParseError` (or
any error) is raised at classification; the record proceeds into the
success-processing code, with no counter incremented, and is persisted
like a success. -/
theorem classify_unknown_marker_falls_through :
    classify ⟨"P1", some "NEZNAMA_CHYBA", "os1", []⟩ = Outcome.fallThrough ∧
    processRecord [] ⟨0, 0, 0, 0⟩ ⟨["OS_ID"], []⟩ ⟨"P1", some "NEZNAMA_CHYBA", "os1", []⟩ =
      .ok (⟨0, 0, 0, 0⟩, ⟨["OS_ID"], []⟩) :=
  ⟨rfl, rfl⟩

/-- C2: a write fault while persisting a record (here an `UPDATE`
naming the non-existent column `B`) is rolled back and swallowed: the
run returns normally, no error is raised, and the later record is
still processed and committed.  The first conjunct exhibits the fault;
the second shows the whole run succeeding around it with both
successes counted. -/
theorem save_attributes_write_fault_swallowed :
    execUpdates ⟨["A", "OS_ID"], [("101", [("A", "old")]), ("102", [("A", "old")])]⟩
      [("B", "v1"), ("OS_ID", "os1")] "101" = none ∧
    save_attributes_to_db [("b", "B")] ⟨0, 0, 0, 0⟩
        ⟨["A", "OS_ID"], [("101", [("A", "old")]), ("102", [("A", "old")])]⟩
        [⟨"101", none, "os1", [("b", "v1")]⟩, ⟨"102", none, "os2", [("a", "v2")]⟩] =
      .ok (⟨0, 0, 0, 2⟩, ⟨["A", "OS_ID"],
        [("101", [("A", "old")]), ("102", [("A", "v2"), ("OS_ID", "os2")])]⟩) :=
  ⟨rfl, rfl⟩

/-- C3 counterexample: in a batch of two success records the second
record's updates fault (column `B` does not exist), yet after the run
the first record's updates are visible — the batch was not rolled back
as a whole, refuting per-batch all-or-nothing. -/
theorem save_attributes_per_batch_atomicity_cex :
    save_attributes_to_db [("b", "B")] ⟨0, 0, 0, 0⟩
        ⟨["A", "OS_ID"], [("101", [("A", "old")]), ("102", [("A", "old")])]⟩
        [⟨"102", none, "os2", [("a", "v2")]⟩, ⟨"101", none, "os1", [("b", "v1")]⟩] =
      .ok (⟨0, 0, 0, 2⟩, ⟨["A", "OS_ID"],
        [("101", [("A", "old")]), ("102", [("A", "v2"), ("OS_ID", "os2")])]⟩) ∧
    execUpdates ⟨["A", "OS_ID"],
        [("101", [("A", "old")]), ("102", [("A", "v2"), ("OS_ID", "os2")])]⟩
      [("B", "v1"), ("OS_ID", "os1")] "101" = none ∧
    [("101", [("A", "old")]), ("102", [("A", "v2"), ("OS_ID", "os2")])] ≠
      [("101", [("A", "old")]), ("102", [("A", "old")])] :=
  ⟨rfl, rfl, by decide⟩

/-- C3 (amended): the transaction spans one record, not one batch —
if any update statement of a record fails, none of that record's
column updates are visible afterward (the store is exactly as before
the record), while a record whose statements all succeed is committed;
earlier records' committed writes are untouched by a later record's
rollback. -/
theorem persistRecord_atomic (st : Store) (database_attributes : List (String × String))
    (osid posident : String) :
    (execUpdates st (database_attributes ++ [("OS_ID", osid)]) posident = none →
      persistRecord st database_attributes osid posident = st) ∧
    (∀ st2, execUpdates st (database_attributes ++ [("OS_ID", osid)]) posident = some st2 →
      persistRecord st database_attributes osid posident = st2) := by
  constructor
  · intro h
    rw [persistRecord, h]
  · intro st2 h
    rw [persistRecord, h]

/-- C3 amended-claim witness: a record whose first update statement
faults leaves the store untouched. -/
theorem persistRecord_atomic_witness :
    persistRecord ⟨["A", "OS_ID"], [("101", [("A", "old")])]⟩ [("B", "v1")] "os1" "101" =
      ⟨["A", "OS_ID"], [("101", [("A", "old")])]⟩ :=
  (persistRecord_atomic ⟨["A", "OS_ID"], [("101", [("A", "old")])]⟩ [("B", "v1")]
    "os1" "101").1 rfl

/-- Sum of the four run counters. -/
def svSum (sv : StateVector) : Nat :=
  sv.neplatny_identifikator + sv.expirovany_identifikator +
    sv.opravneny_subjekt_neexistuje + sv.uspesne_stazeno

/-- A record whose marker is one of the three known literals, or
absent, bumps exactly one counter when processed. -/
theorem processRecord_svSum (attribute_map : List (String × String)) (sv : StateVector)
    (st : Store) (r : OsRecord) (sv2 : StateVector) (st2 : Store)
    (hknown : classify r ≠ Outcome.fallThrough)
    (h : processRecord attribute_map sv st r = .ok (sv2, st2)) :
    svSum sv2 = svSum sv + 1 := by
  cases hc : classify r with
  | fallThrough => exact absurd hc hknown
  | neplatny =>
    simp only [processRecord, hc, Except.ok.injEq, Prod.mk.injEq] at h
    rw [← h.1]
    simp only [svSum, countOutcome]
    omega
  | expirovany =>
    simp only [processRecord, hc, Except.ok.injEq, Prod.mk.injEq] at h
    rw [← h.1]
    simp only [svSum, countOutcome]
    omega
  | opravneny =>
    simp only [processRecord, hc, Except.ok.injEq, Prod.mk.injEq] at h
    rw [← h.1]
    simp only [svSum, countOutcome]
    omega
  | success =>
    simp only [processRecord, hc] at h
    cases ht : translate_attributes st.cols attribute_map r.osDetail with
    | error e =>
      rw [ht] at h
      exact Except.noConfusion h
    | ok database_attributes =>
      rw [ht] at h
      simp only [Except.ok.injEq, Prod.mk.injEq] at h
      rw [← h.1]
      simp only [svSum, countOutcome]
      omega

/-- C5: for a response document whose markers all come from the closed
literal set, a completed `_save_attributes_to_db` pass increments the
four counters by exactly the number of records — every record is
counted exactly once, at classification time, whether or not its
persistence later faults. -/
theorem save_attributes_classification_totals (attribute_map : List (String × String))
    (records : List OsRecord) :
    ∀ sv st sv2 st2, (∀ r ∈ records, classify r ≠ Outcome.fallThrough) →
      save_attributes_to_db attribute_map sv st records = .ok (sv2, st2) →
      svSum sv2 = svSum sv + records.length := by
  induction records with
  | nil =>
    intro sv st sv2 st2 _ h
    simp only [save_attributes_to_db, Except.ok.injEq, Prod.mk.injEq] at h
    rw [← h.1]
    simp
  | cons r rest ih =>
    intro sv st sv2 st2 hknown h
    rw [save_attributes_to_db] at h
    split at h
    next e heq => exact Except.noConfusion h
    next sv3 st3 heq =>
      have hsum := processRecord_svSum attribute_map sv st r sv3 st3
        (hknown r (List.mem_cons_self r rest)) heq
      have htail := ih sv3 st3 sv2 st2 (fun x hx => hknown x (List.mem_cons_of_mem r hx)) h
      rw [List.length_cons]
      omega

/-- C5 witness: the spec scenario — three records, one tagged
`NEPLATNY_IDENTIFIKATOR` and two successful, leave counters
`(1, 0, 0, 2)`, summing to the three identifiers requested. -/
theorem save_attributes_classification_totals_witness :
    svSum ⟨1, 0, 0, 2⟩ = svSum ⟨0, 0, 0, 0⟩ + 3 :=
  save_attributes_classification_totals []
    [⟨"1", some "NEPLATNY_IDENTIFIKATOR", "", []⟩, ⟨"2", none, "os2", []⟩,
     ⟨"3", none, "os3", []⟩]
    ⟨0, 0, 0, 0⟩ ⟨["OS_ID"], []⟩ ⟨1, 0, 0, 2⟩ ⟨["OS_ID"], []⟩ (by decide) rfl

/-- Committed update statements never touch the column list. -/
theorem execUpdates_cols (posident : String) :
    ∀ (ups : List (String × String)) (st st2 : Store),
      execUpdates st ups posident = some st2 → st2.cols = st.cols := by
  intro ups
  induction ups with
  | nil =>
    intro st st2 h
    rw [execUpdates] at h
    injection h with h
    rw [← h]
  | cons u rest ih =>
    intro st st2 h
    obtain ⟨col, v⟩ := u
    rw [execUpdates] at h
    split at h
    next st3 heq =>
      rw [ih st3 st2 h]
      rw [execUpdate] at heq
      split at heq
      · injection heq with heq
        rw [← heq]
      · exact Option.noConfusion heq
    next heq => exact Option.noConfusion h

/-- The per-record transaction never touches the column list. -/
theorem persistRecord_cols (st : Store) (database_attributes : List (String × String))
    (osid posident : String) :
    (persistRecord st database_attributes osid posident).cols = st.cols := by
  rw [persistRecord]
  split
  next st2 heq => exact execUpdates_cols posident _ st st2 heq
  next => rfl

/-- Processing one record leaves the columns alone or applies the
guarded `OS_ID` addition once. -/
theorem processRecord_cols (attribute_map : List (String × String)) (sv : StateVector)
    (st : Store) (r : OsRecord) (sv2 : StateVector) (st2 : Store)
    (h : processRecord attribute_map sv st r = .ok (sv2, st2)) :
    st2.cols = st.cols ∨ st2.cols = addOsIdColumn st.cols := by
  rw [processRecord] at h
  split at h
  · left
    simp only [Except.ok.injEq, Prod.mk.injEq] at h
    rw [← h.2]
  · left
    simp only [Except.ok.injEq, Prod.mk.injEq] at h
    rw [← h.2]
  · left
    simp only [Except.ok.injEq, Prod.mk.injEq] at h
    rw [← h.2]
  · simp only [] at h
    split at h
    next heq => exact Except.noConfusion h
    next database_attributes heq =>
      right
      simp only [Except.ok.injEq, Prod.mk.injEq] at h
      rw [← h.2, persistRecord_cols]

/-- The guarded addition keeps `OS_ID` appearing at most once. -/
theorem addOsIdColumn_count (col_names : List String) (h : col_names.count "OS_ID" ≤ 1) :
    (addOsIdColumn col_names).count "OS_ID" ≤ 1 := by
  rw [addOsIdColumn]
  split
  · exact h
  next hmem =>
    rw [List.count_append, List.count_eq_zero.mpr hmem]
    simp

/-- C9: adding the `OS_ID` column is idempotent — the guarded `ALTER
TABLE` is the identity when the column exists, appends it exactly once
when it does not, and across any number of processed records the
column is present at most once and no addition attempt ever fails. -/
theorem osid_column_addition_idempotent :
    (∀ col_names : List String,
      addOsIdColumn (addOsIdColumn col_names) = addOsIdColumn col_names) ∧
    (∀ col_names : List String, "OS_ID" ∈ col_names → addOsIdColumn col_names = col_names) ∧
    (∀ col_names : List String, "OS_ID" ∉ col_names →
      addOsIdColumn col_names = col_names ++ ["OS_ID"]) ∧
    (∀ attribute_map records sv st sv2 st2,
      save_attributes_to_db attribute_map sv st records = .ok (sv2, st2) →
      st.cols.count "OS_ID" ≤ 1 → st2.cols.count "OS_ID" ≤ 1) := by
  have hpos : ∀ col_names : List String, "OS_ID" ∈ col_names →
      addOsIdColumn col_names = col_names := by
    intro c h
    rw [addOsIdColumn, if_pos h]
  have hneg : ∀ col_names : List String, "OS_ID" ∉ col_names →
      addOsIdColumn col_names = col_names ++ ["OS_ID"] := by
    intro c h
    rw [addOsIdColumn, if_neg h]
  refine ⟨?_, hpos, hneg, ?_⟩
  · intro c
    by_cases hmem : "OS_ID" ∈ c
    · rw [hpos c hmem]
      exact hpos c hmem
    · rw [hneg c hmem]
      exact hpos _ (by simp)
  · intro attribute_map records
    induction records with
    | nil =>
      intro sv st sv2 st2 h hc
      simp only [save_attributes_to_db, Except.ok.injEq, Prod.mk.injEq] at h
      rw [← h.2]
      exact hc
    | cons r rest ih =>
      intro sv st sv2 st2 h hc
      rw [save_attributes_to_db] at h
      split at h
      next e heq => exact Except.noConfusion h
      next sv3 st3 heq =>
        refine ih sv3 st3 sv2 st2 h ?_
        rcases processRecord_cols attribute_map sv st r sv3 st3 heq with h3 | h3
        · rw [h3]
          exact hc
        · rw [h3]
          exact addOsIdColumn_count st.cols hc

/-- C9 witness: a second run against a store already carrying `OS_ID`
leaves the columns unchanged — the column is added at most once. -/
theorem osid_column_addition_idempotent_witness :
    addOsIdColumn ["ID", "VLASTNIK"] = ["ID", "VLASTNIK", "OS_ID"] ∧
    addOsIdColumn ["ID", "VLASTNIK", "OS_ID"] = ["ID", "VLASTNIK", "OS_ID"] :=
  ⟨osid_column_addition_idempotent.2.2.1 ["ID", "VLASTNIK"] (by decide),
   osid_column_addition_idempotent.2.1 ["ID", "VLASTNIK", "OS_ID"] (by decide)⟩

/-- `CtiOs._get_ids_from_db` (lines 115-138): run the select statement
and deduplicate its result with `list(set(ids))`.  The store read is
represented by the table's identifier column and the select statement
by a function from it to the selected identifiers, `SELECT ID FROM
OPSUB` being the identity selection. -/
def get_ids_from_db (rows : List String) (sql : List String → List String) : List String :=
  (sql rows).dedup

/-- `CtiOs.set_ids_from_db` (lines 140-163): default the statement to
`SELECT ID FROM OPSUB`, select and deduplicate, and raise `CtiOsError`
("Query has an empty result!") when at most one identifier remains. -/
def set_ids_from_db (rows : List String) (sql : Option (List String → List String)) :
    Except Err (List String) :=
  let ids := get_ids_from_db rows (sql.getD fun r => r)
  if ids.length ≤ 1 then .error .emptyResult else .ok ids

/-- C8: `set_ids_from_db` raises the empty-result error exactly when
the deduplicated selection has fewer than two elements; otherwise it
returns that deduplicated selection — duplicate-free, with the same
members as the selection, of size at least two — and with no filter
statement the selection is all rows. -/
theorem set_ids_from_db_spec (rows : List String) (sql : Option (List String → List String)) :
    (set_ids_from_db rows sql = .error .emptyResult ↔
      ((sql.getD fun r => r) rows).dedup.length < 2) ∧
    (∀ ids, set_ids_from_db rows sql = .ok ids →
      ids = ((sql.getD fun r => r) rows).dedup ∧ ids.Nodup ∧
      (∀ x, x ∈ ids ↔ x ∈ (sql.getD fun r => r) rows) ∧ 2 ≤ ids.length) ∧
    (sql = none → get_ids_from_db rows (sql.getD fun r => r) = rows.dedup) := by
  refine ⟨?_, ?_, ?_⟩
  · rw [set_ids_from_db]
    simp only [get_ids_from_db]
    split
    next hle => simp only [true_iff, iff_true]; omega
    next hgt =>
      constructor
      · intro h
        exact Except.noConfusion h
      · intro h
        omega
  · intro ids h
    rw [set_ids_from_db] at h
    simp only [get_ids_from_db] at h
    split at h
    next hle => exact Except.noConfusion h
    next hgt =>
      injection h with h
      subst h
      refine ⟨rfl, List.nodup_dedup _, fun x => List.mem_dedup, by omega⟩
  · intro h
    subst h
    rfl

/-- C8 witness: a selection deduplicating to a single identifier is
rejected; two distinct identifiers are returned deduplicated. -/
theorem set_ids_from_db_spec_witness :
    set_ids_from_db ["101", "101"] none = .error .emptyResult ∧
    set_ids_from_db ["101", "102"] none = .ok ["101", "102"] :=
  ⟨(set_ids_from_db_spec ["101", "101"] none).1.mpr (by decide), rfl⟩

/-- The attribute state of a `CtiOs` instance relevant to the
pipeline precondition: `__init__` (lines 32-69) assigns neither
`log_dir` nor `state_vector`; both come into existence only in
`set_log_file`. -/
structure CtiOsState where
  log_dir : Option String
  state_vector : Option StateVector
deriving DecidableEq

/-- A freshly constructed instance: no `log_dir`, no `state_vector`. -/
def ctiOsNew : CtiOsState := ⟨none, none⟩

/-- `CtiOs.set_log_file` (lines 409-446): records the log directory on
the instance and initialises the `state_vector` counters to zero. -/
def set_log_file (s : CtiOsState) (log_dir : String) : CtiOsState :=
  { s with log_dir := some log_dir, state_vector := some ⟨0, 0, 0, 0⟩ }

/-- `CtiOs.query_requests` at the instance level: its first statement
(line 372) reads `self.log_dir`, so an instance missing that attribute
raises `AttributeError` before any batch is formed; with the
attribute present the batches of `query_batches` are processed. -/
def query_requests (s : CtiOsState) (ids : List String) (max_num : Nat) :
    Except Err (List (List String)) :=
  match s.log_dir with
  | none => .error .attributeError
  | some _ => .ok (query_batches ids max_num)

/-- C10: calling `set_log_file` is a precondition of the pipeline — on
an instance without it `query_requests` fails with an attribute-access
error before processing any batch, a fresh instance carries neither
`log_dir` nor `state_vector`, and every `set_log_file` call sets
`log_dir` and resets all four counters to zero. -/
theorem set_log_file_precondition (s : CtiOsState) (ids : List String) (max_num : Nat)
    (log_dir : String) :
    (s.log_dir = none → query_requests s ids max_num = .error .attributeError) ∧
    ctiOsNew.log_dir = none ∧ ctiOsNew.state_vector = none ∧
    (set_log_file s log_dir).state_vector = some ⟨0, 0, 0, 0⟩ ∧
    (set_log_file s log_dir).log_dir = some log_dir ∧
    (∀ d, s.log_dir = some d →
      query_requests s ids max_num = .ok (query_batches ids max_num)) := by
  refine ⟨?_, rfl, rfl, rfl, rfl, ?_⟩
  · intro h
    rw [query_requests, h]
  · intro d h
    rw [query_requests, h]

/-- C10 witness: on a fresh instance `query_requests` raises the
attribute-access error. -/
theorem set_log_file_precondition_witness :
    query_requests ctiOsNew ["101", "102"] 2 = .error .attributeError :=
  (set_log_file_precondition ctiOsNew ["101", "102"] 2 "logs").1 rfl

end PyCtiOs
